import Mathlib

/-
  Verification development for the voice-assistant Arduino repository.

  The definitions below are a shallow embedding of the VAD audio-streaming
  sketch (funciona2/mic_motorista.ino): the voice-activity state machine,
  the packet framer, the CRC-16 integrity code and the capture callback.
  Machine integers are modelled as Nat with an explicit mod 2^32 where the
  source uses uint32_t arithmetic whose wrap-around could be observable.
-/

set_option maxRecDepth 200000

namespace VoiceAssistant

/-- Constants from mic_motorista.ino (lines 21-28). -/
def SAMPLE_RATE : Nat := 16000

def BUFFER_SIZE : Nat := 512

def PACKET_SIZE : Nat := 480

def ENERGY_THRESHOLD : Nat := 800

def SILENCE_FRAMES : Nat := 10

def MIN_VOICE_FRAMES : Nat := 3

def DEVICE_ID : Nat := 1

def U32 : Nat := 2 ^ 32

/-- One bit step of the CRC loop body (mic_motorista.ino lines 226-230):
if the low bit is set, shift right and xor the reflected polynomial 0xA001,
otherwise just shift right. -/
def crcBit (crc : Nat) : Nat :=
  if crc % 2 = 1 then Nat.xor (crc / 2) 0xA001 else crc / 2

/-- One byte step of the CRC (lines 224-231): xor the byte into the
accumulator, then run the bit step eight times.  The mod 256 records that the
C parameter type is uint8_t. -/
def crcByte (crc b : Nat) : Nat :=
  crcBit (crcBit (crcBit (crcBit (crcBit (crcBit (crcBit (crcBit
    (Nat.xor crc (b % 256)))))))))

/-- calculateCRC16 (mic_motorista.ino lines 220-235): seed 0xFFFF, fold the
byte step over the data bytes. -/
def calculateCRC16 (data : List Nat) : Nat :=
  data.foldl crcByte 0xFFFF

/-- The two little-endian bytes of one signed 16-bit PCM sample as it sits
in memory (and is sent on the wire). -/
def sampleBytes (s : Int) : List Nat :=
  [((s % 65536).toNat) % 256, ((s % 65536).toNat) / 256]

/-- The byte image of a list of 16-bit samples, as read by
calculateCRC16((uint8_t*)sendBuffer, n*2) and by udp.write. -/
def payloadBytes (samples : List Int) : List Nat :=
  samples.foldr (fun s acc => sampleBytes s ++ acc) []

/-- The AudioPacket header struct (mic_motorista.ino lines 49-58).
All fields are kept as Nat; the widths are enforced where they matter. -/
structure AudioPacket where
  sequence : Nat
  timestamp : Nat
  device_id : Nat
  sample_rate : Nat
  samples_count : Nat
  checksum : Nat
  flags : Nat
  reserved : Nat
deriving Repr, DecidableEq

/-- Little-endian bytes of a 16-bit field. -/
def le16 (x : Nat) : List Nat :=
  [x % 256, x / 256 % 256]

/-- Little-endian bytes of a 32-bit field. -/
def le32 (x : Nat) : List Nat :=
  [x % 256, x / 256 % 256, x / 65536 % 256, x / 16777216 % 256]

/-- The packed wire image of the header: the struct is
attribute packed, so the fields follow each other with no padding. -/
def headerBytes (p : AudioPacket) : List Nat :=
  le32 p.sequence ++ le32 p.timestamp ++ le16 p.device_id ++
  le16 p.sample_rate ++ le16 p.samples_count ++ le16 p.checksum ++
  [p.flags % 256, p.reserved % 256]

/-- The global mutable state of the sketch that the claims are about:
the VAD counters (lines 37-40), the packet sequence counter (line 43) and
the send buffer (line 32). -/
structure Machine where
  silenceCounter : Nat
  voiceCounter : Nat
  isTransmitting : Bool
  packetSequence : Nat
  sendBuffer : List Int
  lastActivityTime : Nat
deriving Repr, DecidableEq

/-- One buffer-ready event as seen by the main loop: the number of valid
samples reported by the capture callback, the capture buffer contents, the
millis() clock value, and the result udp.endPacket() will report for the
send (if any) performed while processing this frame. -/
structure Frame where
  samplesRead : Nat
  audio : List Int
  now : Nat
  sendResult : Nat
deriving Repr, DecidableEq

/-- The energy computation of processAudioWithVAD (lines 143-147):
sum of absolute sample values over the valid prefix, accumulated in a
uint32_t, then divided by the sample count.  Nat division by zero yields 0
where the C code would divide by zero. -/
def computeEnergy (samplesRead : Nat) (audio : List Int) : Nat :=
  ((audio.take samplesRead).foldl (fun e s => (e + s.natAbs) % U32) 0) / samplesRead

/-- sendAudioData (mic_motorista.ino lines 194-218).  Reads the globals
samplesRead and sendBuffer, post-increments packetSequence (uint32_t), and
emits one packet whose checksum covers exactly the payload bytes.  The flag
byte gets bit0 if the post-incremented sequence counter equals 1 and bit1 if
this is the final packet.  The third component records whether the UDP
failure was logged (endPacket() == 0); the send result has no other effect. -/
def sendAudioData (st : Machine) (samplesRead : Nat) (now : Nat)
    (isFinal : Bool) (endPacketResult : Nat) : Machine × AudioPacket × Bool :=
  let seq := st.packetSequence
  let newSeq := (st.packetSequence + 1) % U32
  let cnt := min samplesRead (PACKET_SIZE / 2)
  let pkt : AudioPacket :=
    { sequence := seq
      timestamp := now % U32
      device_id := DEVICE_ID
      sample_rate := SAMPLE_RATE
      samples_count := cnt
      checksum := calculateCRC16 (payloadBytes (st.sendBuffer.take cnt))
      flags := (if newSeq = 1 then 1 else 0) ||| (if isFinal then 2 else 0)
      reserved := 0 }
  ({ st with packetSequence := newSeq }, pkt, endPacketResult = 0)

/-- The trailing block of processAudioWithVAD (lines 177-191): if
transmitting, copy min(samplesRead, PACKET_SIZE/2) samples into the send
buffer (the tail of the send buffer keeps its previous contents) and send a
regular (non-final) packet. -/
def transmitBlock (st : Machine) (f : Frame) : Machine × List AudioPacket :=
  if st.isTransmitting = true then
    let samplesToSend := min f.samplesRead (PACKET_SIZE / 2)
    let st1 := { st with
      sendBuffer := f.audio.take samplesToSend ++ st.sendBuffer.drop samplesToSend }
    let r := sendAudioData st1 f.samplesRead f.now false f.sendResult
    (r.1, [r.2.1])
  else
    (st, [])

/-- processAudioWithVAD (mic_motorista.ino lines 141-192), as a function from
the machine state and one buffer-ready frame to the new state and the list of
packets emitted while processing that frame. -/
def processAudioWithVAD (st : Machine) (f : Frame) : Machine × List AudioPacket :=
  let energy := computeEnergy f.samplesRead f.audio
  if ENERGY_THRESHOLD < energy then
    let st1 := { st with
      voiceCounter := st.voiceCounter + 1
      silenceCounter := 0
      lastActivityTime := f.now % U32 }
    let st2 :=
      if st1.isTransmitting = false ∧ MIN_VOICE_FRAMES ≤ st1.voiceCounter then
        { st1 with isTransmitting := true, packetSequence := 0 }
      else st1
    transmitBlock st2 f
  else
    let st1 := { st with silenceCounter := st.silenceCounter + 1, voiceCounter := 0 }
    if st1.isTransmitting = true ∧ SILENCE_FRAMES ≤ st1.silenceCounter then
      let r := sendAudioData st1 f.samplesRead f.now true f.sendResult
      let st2 := { r.1 with isTransmitting := false }
      let rest := transmitBlock st2 f
      (rest.1, r.2.1 :: rest.2)
    else
      transmitBlock st1 f

/-- Iterate processAudioWithVAD over a list of buffer-ready frames,
collecting the emitted packets in order. -/
def runVAD (st : Machine) (frames : List Frame) : Machine × List AudioPacket :=
  match frames with
  | [] => (st, [])
  | f :: rest =>
      let r := processAudioWithVAD st f
      let rr := runVAD r.1 rest
      (rr.1, r.2 ++ rr.2)

/-- The initial global state of the sketch: C globals are zero-initialized,
isTransmitting starts false and the send buffer holds PACKET_SIZE/2 zero
samples. -/
def initMachine : Machine :=
  { silenceCounter := 0
    voiceCounter := 0
    isTransmitting := false
    packetSequence := 0
    sendBuffer := List.replicate (PACKET_SIZE / 2) 0
    lastActivityTime := 0 }

/-- onPDMdata (mic_motorista.ino lines 132-139): given the byte count the
capture source reports and the previous values of the shared globals, return
the new (samplesRead, audioReady) pair.  The guard is bytesAvailable > 0 and
samplesRead becomes bytesAvailable / 2. -/
def onPDMdata (bytesAvailable : Nat) (prevSamplesRead : Nat)
    (prevReady : Bool) : Nat × Bool :=
  if 0 < bytesAvailable then (bytesAvailable / 2, true)
  else (prevSamplesRead, prevReady)

/-- A one-sample frame whose energy is 900, above the threshold 800. -/
def voicedFrame : Frame :=
  { samplesRead := 1, audio := [900], now := 0, sendResult := 1 }

/-- A one-sample frame whose energy is 200, below the threshold 800. -/
def silentFrame : Frame :=
  { samplesRead := 1, audio := [200], now := 0, sendResult := 1 }

/-- The scenario of the spec's testable property: three voiced frames
followed by ten silent frames. -/
def scenarioFrames : List Frame :=
  List.replicate 3 voicedFrame ++ List.replicate 10 silentFrame

/-- The inductive invariant of the VAD state machine: while not
transmitting the voice counter is still below the start threshold, and
while transmitting at least one packet of the utterance has been sent and
the silence counter is below the stop threshold. -/
@[reducible] def Inv (st : Machine) : Prop :=
  (st.isTransmitting = false → st.voiceCounter < MIN_VOICE_FRAMES)
  ∧ (st.isTransmitting = true →
      1 ≤ st.packetSequence ∧ st.silenceCounter < SILENCE_FRAMES)

lemma sendAudioData_state (st : Machine) (n now : Nat) (b : Bool) (r : Nat) :
    (sendAudioData st n now b r).1 =
      { st with packetSequence := (st.packetSequence + 1) % U32 } := rfl

lemma sendAudioData_packet (st : Machine) (n now : Nat) (b : Bool) (r : Nat) :
    (sendAudioData st n now b r).2.1 =
      { sequence := st.packetSequence
        timestamp := now % U32
        device_id := DEVICE_ID
        sample_rate := SAMPLE_RATE
        samples_count := min n (PACKET_SIZE / 2)
        checksum := calculateCRC16
          (payloadBytes (st.sendBuffer.take (min n (PACKET_SIZE / 2))))
        flags := (if (st.packetSequence + 1) % U32 = 1 then 1 else 0) |||
                 (if b then 2 else 0)
        reserved := 0 } := rfl

lemma transmitBlock_idle (st : Machine) (f : Frame)
    (ht : st.isTransmitting = false) :
    transmitBlock st f = (st, []) := by
  simp [transmitBlock, ht]

/-- The send buffer after the copy step of processAudioWithVAD (line 180):
the first min(samplesRead, PACKET_SIZE/2) samples of the capture buffer,
the rest of the send buffer unchanged. -/
def newBuf (st : Machine) (f : Frame) : List Int :=
  f.audio.take (min f.samplesRead (PACKET_SIZE / 2)) ++
    st.sendBuffer.drop (min f.samplesRead (PACKET_SIZE / 2))

lemma one_mod_U32 : (1 : Nat) % U32 = 1 :=
  Nat.mod_eq_of_lt (by norm_num [U32])

lemma stepVoicedLow (st : Machine) (f : Frame)
    (hv : ENERGY_THRESHOLD < computeEnergy f.samplesRead f.audio)
    (ht : st.isTransmitting = false)
    (hvc : st.voiceCounter + 1 < MIN_VOICE_FRAMES) :
    processAudioWithVAD st f =
      ({ st with voiceCounter := st.voiceCounter + 1, silenceCounter := 0,
                 lastActivityTime := f.now % U32 }, []) := by
  have hnle : ¬ MIN_VOICE_FRAMES ≤ st.voiceCounter + 1 := Nat.not_le.mpr hvc
  simp [processAudioWithVAD, transmitBlock, hv, ht, hnle]

lemma stepVoicedEnter (st : Machine) (f : Frame)
    (hv : ENERGY_THRESHOLD < computeEnergy f.samplesRead f.audio)
    (ht : st.isTransmitting = false)
    (hvc : MIN_VOICE_FRAMES ≤ st.voiceCounter + 1) :
    processAudioWithVAD st f =
      ({ st with voiceCounter := st.voiceCounter + 1, silenceCounter := 0,
                 lastActivityTime := f.now % U32, isTransmitting := true,
                 packetSequence := 1, sendBuffer := newBuf st f },
       [{ sequence := 0
          timestamp := f.now % U32
          device_id := DEVICE_ID
          sample_rate := SAMPLE_RATE
          samples_count := min f.samplesRead (PACKET_SIZE / 2)
          checksum := calculateCRC16 (payloadBytes
            ((newBuf st f).take (min f.samplesRead (PACKET_SIZE / 2))))
          flags := 1
          reserved := 0 }]) := by
  simp [processAudioWithVAD, transmitBlock, sendAudioData, newBuf,
    hv, ht, hvc, one_mod_U32]

lemma stepVoicedTx (st : Machine) (f : Frame)
    (hv : ENERGY_THRESHOLD < computeEnergy f.samplesRead f.audio)
    (ht : st.isTransmitting = true)
    (hseq : st.packetSequence + 1 < U32)
    (h1 : 1 ≤ st.packetSequence) :
    processAudioWithVAD st f =
      ({ st with voiceCounter := st.voiceCounter + 1, silenceCounter := 0,
                 lastActivityTime := f.now % U32,
                 packetSequence := st.packetSequence + 1,
                 sendBuffer := newBuf st f },
       [{ sequence := st.packetSequence
          timestamp := f.now % U32
          device_id := DEVICE_ID
          sample_rate := SAMPLE_RATE
          samples_count := min f.samplesRead (PACKET_SIZE / 2)
          checksum := calculateCRC16 (payloadBytes
            ((newBuf st f).take (min f.samplesRead (PACKET_SIZE / 2))))
          flags := 0
          reserved := 0 }]) := by
  have hmod : (st.packetSequence + 1) % U32 = st.packetSequence + 1 :=
    Nat.mod_eq_of_lt hseq
  have hne : ¬ (st.packetSequence + 1) % U32 = 1 := by
    rw [hmod]; omega
  have hz : ¬ st.packetSequence = 0 := by omega
  simp [processAudioWithVAD, transmitBlock, sendAudioData, newBuf,
    hv, ht, hmod, hne, hz]

lemma stepSilentIdle (st : Machine) (f : Frame)
    (hs : ¬ ENERGY_THRESHOLD < computeEnergy f.samplesRead f.audio)
    (ht : st.isTransmitting = false) :
    processAudioWithVAD st f =
      ({ st with silenceCounter := st.silenceCounter + 1, voiceCounter := 0 },
       []) := by
  simp [processAudioWithVAD, transmitBlock, hs, ht]

lemma stepSilentTxLow (st : Machine) (f : Frame)
    (hs : ¬ ENERGY_THRESHOLD < computeEnergy f.samplesRead f.audio)
    (ht : st.isTransmitting = true)
    (hsc : st.silenceCounter + 1 < SILENCE_FRAMES)
    (hseq : st.packetSequence + 1 < U32)
    (h1 : 1 ≤ st.packetSequence) :
    processAudioWithVAD st f =
      ({ st with silenceCounter := st.silenceCounter + 1, voiceCounter := 0,
                 packetSequence := st.packetSequence + 1,
                 sendBuffer := newBuf st f },
       [{ sequence := st.packetSequence
          timestamp := f.now % U32
          device_id := DEVICE_ID
          sample_rate := SAMPLE_RATE
          samples_count := min f.samplesRead (PACKET_SIZE / 2)
          checksum := calculateCRC16 (payloadBytes
            ((newBuf st f).take (min f.samplesRead (PACKET_SIZE / 2))))
          flags := 0
          reserved := 0 }]) := by
  have hnle : ¬ SILENCE_FRAMES ≤ st.silenceCounter + 1 := Nat.not_le.mpr hsc
  have hmod : (st.packetSequence + 1) % U32 = st.packetSequence + 1 :=
    Nat.mod_eq_of_lt hseq
  have hne : ¬ (st.packetSequence + 1) % U32 = 1 := by
    rw [hmod]; omega
  have hz : ¬ st.packetSequence = 0 := by omega
  simp [processAudioWithVAD, transmitBlock, sendAudioData, newBuf,
    hs, ht, hnle, hmod, hne, hz]

lemma stepSilentFinal (st : Machine) (f : Frame)
    (hs : ¬ ENERGY_THRESHOLD < computeEnergy f.samplesRead f.audio)
    (ht : st.isTransmitting = true)
    (hsc : SILENCE_FRAMES ≤ st.silenceCounter + 1)
    (hseq : st.packetSequence + 1 < U32)
    (h1 : 1 ≤ st.packetSequence) :
    processAudioWithVAD st f =
      ({ st with silenceCounter := st.silenceCounter + 1, voiceCounter := 0,
                 packetSequence := st.packetSequence + 1,
                 isTransmitting := false },
       [{ sequence := st.packetSequence
          timestamp := f.now % U32
          device_id := DEVICE_ID
          sample_rate := SAMPLE_RATE
          samples_count := min f.samplesRead (PACKET_SIZE / 2)
          checksum := calculateCRC16 (payloadBytes
            (st.sendBuffer.take (min f.samplesRead (PACKET_SIZE / 2))))
          flags := 2
          reserved := 0 }]) := by
  have hmod : (st.packetSequence + 1) % U32 = st.packetSequence + 1 :=
    Nat.mod_eq_of_lt hseq
  have hne : ¬ (st.packetSequence + 1) % U32 = 1 := by
    rw [hmod]; omega
  have hz : ¬ st.packetSequence = 0 := by omega
  simp [processAudioWithVAD, transmitBlock, sendAudioData,
    hs, ht, hsc, hmod, hne, hz]

/-- Exhaustive description of one buffer-ready step from a state satisfying
the invariant whose sequence counter has room to increment: the invariant is
preserved, the sequence counter grows by at most one, and the step falls in
one of four cases (stay idle, enter transmitting, continue transmitting,
leave transmitting), each with its exact packet output. -/
lemma stepCases (st : Machine) (f : Frame) (hInv : Inv st)
    (hseq : st.packetSequence + 1 < U32) :
    Inv (processAudioWithVAD st f).1
  ∧ (processAudioWithVAD st f).1.packetSequence ≤ st.packetSequence + 1
  ∧ ((st.isTransmitting = false
        ∧ (processAudioWithVAD st f).1.isTransmitting = false
        ∧ (processAudioWithVAD st f).2 = []
        ∧ (processAudioWithVAD st f).1.packetSequence = st.packetSequence)
   ∨ (st.isTransmitting = false
        ∧ (processAudioWithVAD st f).1.isTransmitting = true
        ∧ (processAudioWithVAD st f).1.packetSequence = 1
        ∧ ∃ p, (processAudioWithVAD st f).2 = [p]
            ∧ p.sequence = 0 ∧ p.flags = 1
            ∧ p.samples_count = min f.samplesRead (PACKET_SIZE / 2))
   ∨ (st.isTransmitting = true
        ∧ (processAudioWithVAD st f).1.isTransmitting = true
        ∧ (processAudioWithVAD st f).1.packetSequence = st.packetSequence + 1
        ∧ ∃ p, (processAudioWithVAD st f).2 = [p]
            ∧ p.sequence = st.packetSequence ∧ p.flags = 0
            ∧ p.samples_count = min f.samplesRead (PACKET_SIZE / 2))
   ∨ (st.isTransmitting = true
        ∧ (processAudioWithVAD st f).1.isTransmitting = false
        ∧ (processAudioWithVAD st f).1.packetSequence = st.packetSequence + 1
        ∧ ∃ p, (processAudioWithVAD st f).2 = [p]
            ∧ p.sequence = st.packetSequence ∧ p.flags = 2
            ∧ p.samples_count = min f.samplesRead (PACKET_SIZE / 2))) := by
  by_cases hv : ENERGY_THRESHOLD < computeEnergy f.samplesRead f.audio
  · by_cases ht : st.isTransmitting = true
    · have h1 : 1 ≤ st.packetSequence := (hInv.2 ht).1
      rw [stepVoicedTx st f hv ht hseq h1]
      refine ⟨⟨by simp [ht], fun _ => ⟨by simp,
          by norm_num [SILENCE_FRAMES]⟩⟩,
        by simp, Or.inr (Or.inr (Or.inl
          ⟨ht, by simp [ht], by simp, _, rfl, rfl, rfl, rfl⟩))⟩
    · have ht' : st.isTransmitting = false := by
        simpa using ht
      by_cases he : MIN_VOICE_FRAMES ≤ st.voiceCounter + 1
      · rw [stepVoicedEnter st f hv ht' he]
        refine ⟨⟨by simp, fun _ => ⟨by simp, by norm_num [SILENCE_FRAMES]⟩⟩,
          by simp, Or.inr (Or.inl ⟨ht', by simp, by simp,
            _, rfl, rfl, rfl, rfl⟩)⟩
      · have hvc : st.voiceCounter + 1 < MIN_VOICE_FRAMES := Nat.not_le.mp he
        rw [stepVoicedLow st f hv ht' hvc]
        refine ⟨⟨fun _ => hvc, fun h => absurd (ht'.symm.trans h) (by simp)⟩,
          by simp, Or.inl ⟨ht', ht', rfl, rfl⟩⟩
  · by_cases ht : st.isTransmitting = true
    · have h1 : 1 ≤ st.packetSequence := (hInv.2 ht).1
      by_cases hsc : SILENCE_FRAMES ≤ st.silenceCounter + 1
      · rw [stepSilentFinal st f hv ht hsc hseq h1]
        refine ⟨⟨fun _ => by norm_num [MIN_VOICE_FRAMES], by simp⟩,
          by simp, Or.inr (Or.inr (Or.inr
            ⟨ht, rfl, by simp, _, rfl, rfl, rfl, rfl⟩))⟩
      · have hlow : st.silenceCounter + 1 < SILENCE_FRAMES := Nat.not_le.mp hsc
        rw [stepSilentTxLow st f hv ht hlow hseq h1]
        refine ⟨⟨by simp [ht], fun _ => ⟨by simp, hlow⟩⟩,
          by simp, Or.inr (Or.inr (Or.inl
            ⟨ht, by simp [ht], by simp, _, rfl, rfl, rfl, rfl⟩))⟩
    · have ht' : st.isTransmitting = false := by
        simpa using ht
      rw [stepSilentIdle st f hv ht']
      refine ⟨⟨fun _ => by norm_num [MIN_VOICE_FRAMES],
          fun h => absurd (ht'.symm.trans h) (by simp)⟩,
        by simp, Or.inl ⟨ht', ht', rfl, rfl⟩⟩

lemma runVAD_cons (st : Machine) (f : Frame) (rest : List Frame) :
    runVAD st (f :: rest) =
      ((runVAD (processAudioWithVAD st f).1 rest).1,
       (processAudioWithVAD st f).2 ++
         (runVAD (processAudioWithVAD st f).1 rest).2) := rfl

/-- The shape of a packet trace produced from a state with the given
transmitting flag and sequence counter: while idle the next packet (if any)
opens an utterance with sequence 0 and flag byte 1 (bit0 only); while
transmitting the next packet carries the current sequence counter and either
continues the utterance with flag byte 0 or closes it with flag byte 2
(bit1 only), after which the trace re-starts from the idle shape. -/
def chainFrom : Bool → Nat → List AudioPacket → Bool
  | _, _, [] => true
  | false, _, p :: ps => p.sequence == 0 && p.flags == 1 && chainFrom true 1 ps
  | true, seq, p :: ps => p.sequence == seq &&
      ((p.flags == 0 && chainFrom true (seq + 1) ps) ||
       (p.flags == 2 && chainFrom false 0 ps))

lemma chainFrom_false_eq (x y : Nat) (ps : List AudioPacket) :
    chainFrom false x ps = chainFrom false y ps := by
  cases ps <;> rfl

/-- Run-level soundness of the trace shape: from any state satisfying the
invariant, as long as the sequence counter cannot wrap during the run, the
invariant still holds afterwards, the sequence counter has grown by at most
the number of frames, and the emitted packets form a well-shaped chain. -/
lemma runVAD_chain (frames : List Frame) (st : Machine) (hInv : Inv st)
    (hb : st.packetSequence + frames.length < U32) :
    Inv (runVAD st frames).1
  ∧ (runVAD st frames).1.packetSequence ≤ st.packetSequence + frames.length
  ∧ chainFrom st.isTransmitting st.packetSequence (runVAD st frames).2 = true := by
  induction frames generalizing st with
  | nil =>
      exact ⟨hInv, by simp [runVAD], by cases st.isTransmitting <;> rfl⟩
  | cons f rest ih =>
      have hlen : (f :: rest).length = rest.length + 1 := by simp
      have hseq : st.packetSequence + 1 < U32 := by
        rw [hlen] at hb; omega
      obtain ⟨hInv1, hbound, hcase⟩ := stepCases st f hInv hseq
      have hb1 : (processAudioWithVAD st f).1.packetSequence + rest.length < U32 := by
        rw [hlen] at hb; omega
      obtain ⟨ihInv, ihBound, ihChain⟩ := ih (processAudioWithVAD st f).1 hInv1 hb1
      rw [runVAD_cons]
      refine ⟨ihInv, by rw [hlen]; dsimp only; omega, ?_⟩
      rcases hcase with ⟨hF, hF', htr, hseqEq⟩ |
        ⟨hF, hT, hseq1, p, htr, hps, hpf, hpc⟩ |
        ⟨hF, hT, hseqEq, p, htr, hps, hpf, hpc⟩ |
        ⟨hF, hT, hseqEq, p, htr, hps, hpf, hpc⟩
      · rw [hF', hseqEq] at ihChain
        rw [hF, htr]
        simpa using ihChain
      · rw [hT, hseq1] at ihChain
        rw [hF, htr]
        simp [chainFrom, hps, hpf, ihChain]
      · rw [hT, hseqEq] at ihChain
        rw [hF, htr]
        simp [chainFrom, hps, hpf, ihChain]
      · rw [hT, hseqEq] at ihChain
        rw [chainFrom_false_eq (st.packetSequence + 1) 0] at ihChain
        rw [hF, htr]
        simp [chainFrom, hps, hpf, ihChain]

lemma runVAD_append (st : Machine) (a b : List Frame) :
    runVAD st (a ++ b) =
      ((runVAD (runVAD st a).1 b).1,
       (runVAD st a).2 ++ (runVAD (runVAD st a).1 b).2) := by
  induction a generalizing st with
  | nil => simp [runVAD]
  | cons f rest ih => simp [runVAD_cons, ih, List.append_assoc]

lemma runVAD_singleton (st : Machine) (f : Frame) :
    runVAD st [f] =
      ((processAudioWithVAD st f).1, (processAudioWithVAD st f).2) := by
  simp [runVAD]

lemma voicedFrame_voiced :
    ENERGY_THRESHOLD < computeEnergy voicedFrame.samplesRead voicedFrame.audio := by
  decide

lemma silentFrame_silent :
    ¬ ENERGY_THRESHOLD < computeEnergy silentFrame.samplesRead silentFrame.audio := by
  decide

/-- Feeding voiced frames to a non-transmitting state, as long as the voice
counter stays under the start threshold: the machine stays idle, counts the
frames, and emits nothing. -/
lemma runVAD_cons_state (st : Machine) (f : Frame) (rest : List Frame) :
    (runVAD st (f :: rest)).1 = (runVAD (processAudioWithVAD st f).1 rest).1 := rfl

lemma runVoicedIdle (k : Nat) (st : Machine)
    (ht : st.isTransmitting = false)
    (hk : st.voiceCounter + k < MIN_VOICE_FRAMES) :
    (runVAD st (List.replicate k voicedFrame)).1.isTransmitting = false
  ∧ (runVAD st (List.replicate k voicedFrame)).1.voiceCounter = st.voiceCounter + k
  ∧ (runVAD st (List.replicate k voicedFrame)).1.packetSequence = st.packetSequence := by
  induction k generalizing st with
  | zero => exact ⟨ht, rfl, rfl⟩
  | succ k ih =>
      have hvc : st.voiceCounter + 1 < MIN_VOICE_FRAMES := by omega
      have hstep := stepVoicedLow st voicedFrame voicedFrame_voiced ht hvc
      have e1 : (processAudioWithVAD st voicedFrame).1.isTransmitting
          = st.isTransmitting := by rw [hstep]
      have e2 : (processAudioWithVAD st voicedFrame).1.voiceCounter
          = st.voiceCounter + 1 := by rw [hstep]
      have e3 : (processAudioWithVAD st voicedFrame).1.packetSequence
          = st.packetSequence := by rw [hstep]
      obtain ⟨h1, h2, h3⟩ := ih (processAudioWithVAD st voicedFrame).1
        (e1.trans ht) (by rw [e2]; omega)
      rw [List.replicate_succ]
      refine ⟨?_, ?_, ?_⟩
      · rw [runVAD_cons_state]
        exact h1
      · rw [runVAD_cons_state, h2, e2]
        omega
      · rw [runVAD_cons_state, h3, e3]

/-- Feeding silent frames to a transmitting state, as long as the silence
counter stays under the stop threshold: the machine keeps transmitting,
counts the silent frames, and the sequence counter advances once per frame. -/
lemma runSilentTx (k : Nat) (st : Machine)
    (ht : st.isTransmitting = true)
    (h1 : 1 ≤ st.packetSequence)
    (hk : st.silenceCounter + k < SILENCE_FRAMES)
    (hseq : st.packetSequence + k < U32) :
    (runVAD st (List.replicate k silentFrame)).1.isTransmitting = true
  ∧ (runVAD st (List.replicate k silentFrame)).1.silenceCounter = st.silenceCounter + k
  ∧ (runVAD st (List.replicate k silentFrame)).1.packetSequence = st.packetSequence + k := by
  induction k generalizing st with
  | zero => exact ⟨ht, rfl, rfl⟩
  | succ k ih =>
      have hsc : st.silenceCounter + 1 < SILENCE_FRAMES := by omega
      have hs1 : st.packetSequence + 1 < U32 := by omega
      have hstep := stepSilentTxLow st silentFrame silentFrame_silent ht hsc hs1 h1
      have e1 : (processAudioWithVAD st silentFrame).1.isTransmitting
          = st.isTransmitting := by rw [hstep]
      have e2 : (processAudioWithVAD st silentFrame).1.silenceCounter
          = st.silenceCounter + 1 := by rw [hstep]
      have e3 : (processAudioWithVAD st silentFrame).1.packetSequence
          = st.packetSequence + 1 := by rw [hstep]
      obtain ⟨g1, g2, g3⟩ := ih (processAudioWithVAD st silentFrame).1
        (e1.trans ht) (by rw [e3]; omega) (by rw [e2]; omega) (by rw [e3]; omega)
      rw [List.replicate_succ]
      refine ⟨?_, ?_, ?_⟩
      · rw [runVAD_cons_state]
        exact g1
      · rw [runVAD_cons_state, g2, e2]
        omega
      · rw [runVAD_cons_state, g3, e3]
        omega

/-- C1: the state machine leaves the not-transmitting state exactly when the
consecutive-voiced counter reaches MIN_VOICE_FRAMES, and leaves the
transmitting state exactly when the consecutive-silence counter reaches
SILENCE_FRAMES.  The first two bullets are the off-by-one boundary runs
(threshold minus one consecutive frames do not transition, exactly threshold
frames do); the last two characterize, for an arbitrary frame, exactly when
a single step transitions. -/
theorem C1_debounce_boundaries (st : Machine) (f : Frame)
    (hInv : Inv st)
    (hseq : st.packetSequence + SILENCE_FRAMES < U32) :
    (st.isTransmitting = false → st.voiceCounter = 0 →
        (runVAD st (List.replicate (MIN_VOICE_FRAMES - 1) voicedFrame)).1.isTransmitting
            = false
      ∧ (runVAD st (List.replicate MIN_VOICE_FRAMES voicedFrame)).1.isTransmitting
            = true)
  ∧ (st.isTransmitting = true → st.silenceCounter = 0 →
        (runVAD st (List.replicate (SILENCE_FRAMES - 1) silentFrame)).1.isTransmitting
            = true
      ∧ (runVAD st (List.replicate SILENCE_FRAMES silentFrame)).1.isTransmitting
            = false)
  ∧ (st.isTransmitting = false →
      ((processAudioWithVAD st f).1.isTransmitting = true ↔
        ENERGY_THRESHOLD < computeEnergy f.samplesRead f.audio
          ∧ st.voiceCounter + 1 = MIN_VOICE_FRAMES))
  ∧ (st.isTransmitting = true →
      ((processAudioWithVAD st f).1.isTransmitting = false ↔
        ¬ ENERGY_THRESHOLD < computeEnergy f.samplesRead f.audio
          ∧ st.silenceCounter + 1 = SILENCE_FRAMES)) := by
  have hs1 : st.packetSequence + 1 < U32 := by
    have : (1 : Nat) ≤ SILENCE_FRAMES := by norm_num [SILENCE_FRAMES]
    omega
  refine ⟨?_, ?_, ?_, ?_⟩
  · intro ht hvc
    constructor
    · exact (runVoicedIdle (MIN_VOICE_FRAMES - 1) st ht
        (by rw [hvc]; norm_num [MIN_VOICE_FRAMES])).1
    · have hsplit : List.replicate MIN_VOICE_FRAMES voicedFrame =
          List.replicate (MIN_VOICE_FRAMES - 1) voicedFrame ++ [voicedFrame] := by
        rfl
      rw [hsplit, runVAD_append, runVAD_singleton]
      obtain ⟨g1, g2, g3⟩ := runVoicedIdle (MIN_VOICE_FRAMES - 1) st ht
        (by rw [hvc]; norm_num [MIN_VOICE_FRAMES])
      rw [stepVoicedEnter _ voicedFrame voicedFrame_voiced g1
        (by rw [g2, hvc]; norm_num [MIN_VOICE_FRAMES])]
  · intro ht hsc
    have h1 : 1 ≤ st.packetSequence := (hInv.2 ht).1
    constructor
    · exact (runSilentTx (SILENCE_FRAMES - 1) st ht h1
        (by rw [hsc]; norm_num [SILENCE_FRAMES])
        (by norm_num [SILENCE_FRAMES] at hseq ⊢; omega)).1
    · have hsplit : List.replicate SILENCE_FRAMES silentFrame =
          List.replicate (SILENCE_FRAMES - 1) silentFrame ++ [silentFrame] := by
        rfl
      rw [hsplit, runVAD_append, runVAD_singleton]
      obtain ⟨g1, g2, g3⟩ := runSilentTx (SILENCE_FRAMES - 1) st ht h1
        (by rw [hsc]; norm_num [SILENCE_FRAMES])
        (by norm_num [SILENCE_FRAMES] at hseq ⊢; omega)
      rw [stepSilentFinal _ silentFrame silentFrame_silent g1
        (by rw [g2, hsc]; norm_num [SILENCE_FRAMES])
        (by rw [g3]; norm_num [SILENCE_FRAMES] at hseq ⊢; omega)
        (by rw [g3]; omega)]
  · intro ht
    have hvlt : st.voiceCounter < MIN_VOICE_FRAMES := hInv.1 ht
    by_cases hv : ENERGY_THRESHOLD < computeEnergy f.samplesRead f.audio
    · by_cases he : MIN_VOICE_FRAMES ≤ st.voiceCounter + 1
      · rw [stepVoicedEnter st f hv ht he]
        constructor
        · intro _
          exact ⟨hv, by omega⟩
        · intro _
          rfl
      · rw [stepVoicedLow st f hv ht (Nat.not_le.mp he)]
        constructor
        · intro hcontra
          exact absurd (ht.symm.trans hcontra) (by simp)
        · intro hcontra
          exact absurd hcontra.2 (by omega)
    · rw [stepSilentIdle st f hv ht]
      constructor
      · intro hcontra
        exact absurd (ht.symm.trans hcontra) (by simp)
      · intro hcontra
        exact absurd hcontra.1 hv
  · intro ht
    have h1 : 1 ≤ st.packetSequence := (hInv.2 ht).1
    have hslt : st.silenceCounter < SILENCE_FRAMES := (hInv.2 ht).2
    by_cases hv : ENERGY_THRESHOLD < computeEnergy f.samplesRead f.audio
    · rw [stepVoicedTx st f hv ht hs1 h1]
      constructor
      · intro hcontra
        exact absurd (ht.symm.trans hcontra) (by simp)
      · intro hcontra
        exact absurd hv hcontra.1
    · by_cases hsc : SILENCE_FRAMES ≤ st.silenceCounter + 1
      · rw [stepSilentFinal st f hv ht hsc hs1 h1]
        constructor
        · intro _
          exact ⟨hv, by omega⟩
        · intro _
          rfl
      · rw [stepSilentTxLow st f hv ht (Nat.not_le.mp hsc) hs1 h1]
        constructor
        · intro hcontra
          exact absurd (ht.symm.trans hcontra) (by simp)
        · intro hcontra
          exact absurd hcontra.2 (by omega)

/-- Witness for C1 at the initial state: two consecutive voiced frames do
not start transmission, three do. -/
theorem C1_witness :
    (runVAD initMachine
        (List.replicate (MIN_VOICE_FRAMES - 1) voicedFrame)).1.isTransmitting = false
  ∧ (runVAD initMachine
        (List.replicate MIN_VOICE_FRAMES voicedFrame)).1.isTransmitting = true :=
  (C1_debounce_boundaries initMachine voicedFrame (by decide) (by decide)).1 rfl rfl

set_option maxRecDepth 40000 in
/-- C2: the integrity code of every emitted packet is the bit-by-bit CRC-16
with reflected polynomial 0xA001 and seed 0xFFFF, computed over exactly the
payload bytes that accompany the header (the header fields are not an input
of the computation); it is a deterministic function of the payload byte
list; the empty payload returns the seed 0xFFFF unchanged; each byte is
processed by eight shift/XOR steps; the values on the payloads 0x00 and
"123456789" match the published CRC-16/MODBUS test vectors. -/
theorem C2_crc16_integrity (st : Machine) (n now : Nat) (b : Bool) (r : Nat)
    (data : List Nat) (x : Nat) :
    (sendAudioData st n now b r).2.1.checksum
      = calculateCRC16 (payloadBytes (st.sendBuffer.take (min n (PACKET_SIZE / 2))))
  ∧ calculateCRC16 [] = 0xFFFF
  ∧ calculateCRC16 (data ++ [x])
      = crcBit (crcBit (crcBit (crcBit (crcBit (crcBit (crcBit (crcBit
          (Nat.xor (calculateCRC16 data) (x % 256)))))))))
  ∧ calculateCRC16 [0] = 0x40BF
  ∧ calculateCRC16 [0x31, 0x32, 0x33, 0x34, 0x35, 0x36, 0x37, 0x38, 0x39]
      = 0x4B37 := by
  refine ⟨rfl, rfl, ?_, by decide, by decide⟩
  rw [calculateCRC16, calculateCRC16, List.foldl_append]
  rfl

/-- C3: the packet emitted on the step that enters Transmitting (the first
packet of the utterance) has flag bit0 set and bit1 clear; the packet
emitted on the step that leaves Transmitting has bit1 set and bit0 clear;
every packet emitted on a step that does not change the transmitting state
has a zero flag byte.  The invariant holds initially and is preserved, so
this covers every run whose utterances stay below 2^32 packets (the width
of the uint32_t sequence counter). -/
theorem C3_flag_bits (st : Machine) (f : Frame)
    (hInv : Inv st) (hseq : st.packetSequence + 1 < U32) :
    Inv initMachine
  ∧ Inv (processAudioWithVAD st f).1
  ∧ (st.isTransmitting = false →
      (processAudioWithVAD st f).1.isTransmitting = true →
      ∃ p, (processAudioWithVAD st f).2 = [p]
        ∧ p.flags.testBit 0 = true ∧ p.flags.testBit 1 = false)
  ∧ (st.isTransmitting = true →
      (processAudioWithVAD st f).1.isTransmitting = false →
      ∃ p, (processAudioWithVAD st f).2 = [p]
        ∧ p.flags.testBit 1 = true ∧ p.flags.testBit 0 = false)
  ∧ (st.isTransmitting = (processAudioWithVAD st f).1.isTransmitting →
      ∀ p ∈ (processAudioWithVAD st f).2, p.flags = 0) := by
  obtain ⟨hInv1, _, hcase⟩ := stepCases st f hInv hseq
  refine ⟨by decide, hInv1, ?_, ?_, ?_⟩
  · intro hF hT
    rcases hcase with ⟨_, hF', _, _⟩ | ⟨_, _, _, p, htr, _, hpf, _⟩ |
      ⟨hT', _, _, _⟩ | ⟨_, hF', _, _⟩
    · exact absurd (hF'.symm.trans hT) (by simp)
    · exact ⟨p, htr, by rw [hpf]; decide, by rw [hpf]; decide⟩
    · exact absurd (hT'.symm.trans hF) (by simp)
    · exact absurd (hF'.symm.trans hT) (by simp)
  · intro hT hF
    rcases hcase with ⟨hT', _, _, _⟩ | ⟨hT', _, _, _⟩ |
      ⟨_, hT', _, _⟩ | ⟨_, _, _, p, htr, _, hpf, _⟩
    · exact absurd (hT'.symm.trans hT) (by simp)
    · exact absurd (hT'.symm.trans hT) (by simp)
    · exact absurd (hT'.symm.trans hF) (by simp)
    · exact ⟨p, htr, by rw [hpf]; decide, by rw [hpf]; decide⟩
  · intro hEq
    rcases hcase with ⟨_, _, htr, _⟩ | ⟨hF, hT, _, _⟩ |
      ⟨_, _, _, p, htr, _, hpf, _⟩ | ⟨hT, hF, _, _⟩
    · intro p hp
      rw [htr] at hp
      exact absurd hp (List.not_mem_nil p)
    · exact absurd ((hF.symm.trans hEq).trans hT) (by simp)
    · intro q hq
      rw [htr, List.mem_singleton] at hq
      rw [hq, hpf]
    · exact absurd ((hT.symm.trans hEq).trans hF) (by simp)

/-- Witness for C3: from the state reached after two voiced frames, a third
voiced frame enters Transmitting and the packet emitted on that step has
bit0 set and bit1 clear. -/
theorem C3_witness :
    ∃ p, (processAudioWithVAD
        (runVAD initMachine (List.replicate 2 voicedFrame)).1 voicedFrame).2 = [p]
      ∧ p.flags.testBit 0 = true ∧ p.flags.testBit 1 = false :=
  (C3_flag_bits (runVAD initMachine (List.replicate 2 voicedFrame)).1 voicedFrame
    (by decide) (by decide)).2.2.1 (by decide) (by decide)

/-- C6: on every run from the initial state (shorter than the 2^32 wrap
bound of the uint32_t sequence counter), the emitted packet stream is a
chain in which each utterance opens with sequence number 0 and each later
packet of the utterance increments the sequence number by exactly one, with
no gaps, until the closing (bit1) packet, regardless of which frames the
packets come from. -/
theorem C6_sequence_contiguity (frames : List Frame)
    (hb : frames.length < U32) :
    chainFrom false 0 (runVAD initMachine frames).2 = true :=
  (runVAD_chain frames initMachine (by decide) (by simpa [initMachine] using hb)).2.2

/-- Witness for C6 at the spec scenario frames. -/
theorem C6_witness :
    chainFrom false 0 (runVAD initMachine scenarioFrames).2 = true :=
  C6_sequence_contiguity scenarioFrames (by decide)

/-- C9: the state update and the emitted packet of sendAudioData do not
depend on the value udp.endPacket reports: the sequence counter advances by
exactly one either way, the transmitting flag and the VAD counters are
untouched by the send, exactly one packet is produced per call (no retry),
and a whole processing step yields the same successor state and the same
packets for any two send results. -/
theorem C9_send_failure_ignored (st : Machine) (n now : Nat) (b : Bool)
    (r r2 : Nat) (f : Frame) :
    (sendAudioData st n now b r).1 = (sendAudioData st n now b r2).1
  ∧ (sendAudioData st n now b r).2.1 = (sendAudioData st n now b r2).2.1
  ∧ (sendAudioData st n now b r).1.packetSequence = (st.packetSequence + 1) % U32
  ∧ (sendAudioData st n now b r).1.isTransmitting = st.isTransmitting
  ∧ (sendAudioData st n now b r).1.voiceCounter = st.voiceCounter
  ∧ (sendAudioData st n now b r).1.silenceCounter = st.silenceCounter
  ∧ (processAudioWithVAD st { f with sendResult := r }).1
      = (processAudioWithVAD st { f with sendResult := r2 }).1
  ∧ (processAudioWithVAD st { f with sendResult := r }).2
      = (processAudioWithVAD st { f with sendResult := r2 }).2 := by
  refine ⟨rfl, rfl, rfl, rfl, rfl, rfl, ?_, ?_⟩ <;>
    simp [processAudioWithVAD, transmitBlock, sendAudioData]

lemma payloadBytes_length (l : List Int) :
    (payloadBytes l).length = 2 * l.length := by
  induction l with
  | nil => rfl
  | cons s rest ih =>
      show (sampleBytes s ++ payloadBytes rest).length = 2 * (s :: rest).length
      rw [List.length_append, ih, List.length_cons, sampleBytes]
      simp
      omega

lemma headerBytes_length (p : AudioPacket) : (headerBytes p).length = 18 := by
  simp [headerBytes, le16, le32]

/-- C7 counterexample: the packed AudioPacket header is 18 bytes
(4+4+2+2+2+2+1+1), not 16 as the claim states; shown on the packet built
from the initial state with a full 512-sample capture. -/
theorem C7_counterexample :
    (headerBytes (sendAudioData initMachine BUFFER_SIZE 0 false 1).2.1).length
        = 18
  ∧ (headerBytes (sendAudioData initMachine BUFFER_SIZE 0 false 1).2.1).length
        ≠ 16 :=
  ⟨headerBytes_length _, by rw [headerBytes_length]; omega⟩

/-- C7 amended: every emitted packet carries at most PACKET_SIZE/2 = 240
samples, its packed header is exactly 18 bytes (not 16: the struct has two
4-byte, four 2-byte and two 1-byte fields), its datagram (header plus the
payload bytes actually sent) is exactly 18 + 2 * samples_count bytes, and
that total never exceeds the configured budget of 18 + PACKET_SIZE = 498
bytes — below a 1500-byte Ethernet MTU — for every sample count the capture
callback can report, from 1 up to the capture buffer capacity of 512 and
beyond. -/
theorem C7_packet_size (st : Machine) (n now : Nat) (b : Bool) (r : Nat)
    (hbuf : st.sendBuffer.length = PACKET_SIZE / 2) :
    (sendAudioData st n now b r).2.1.samples_count ≤ PACKET_SIZE / 2
  ∧ (headerBytes (sendAudioData st n now b r).2.1).length = 18
  ∧ (headerBytes (sendAudioData st n now b r).2.1 ++
       payloadBytes (st.sendBuffer.take
         (sendAudioData st n now b r).2.1.samples_count)).length
      = 18 + 2 * (sendAudioData st n now b r).2.1.samples_count
  ∧ 18 + 2 * (sendAudioData st n now b r).2.1.samples_count ≤ 18 + PACKET_SIZE
  ∧ 18 + PACKET_SIZE ≤ 1500 := by
  have hcnt : (sendAudioData st n now b r).2.1.samples_count
      = min n (PACKET_SIZE / 2) := rfl
  have hmin : min n (PACKET_SIZE / 2) ≤ PACKET_SIZE / 2 :=
    Nat.min_le_right n (PACKET_SIZE / 2)
  refine ⟨by rw [hcnt]; exact hmin, headerBytes_length _, ?_, ?_, ?_⟩
  · rw [List.length_append, headerBytes_length, payloadBytes_length,
      List.length_take, hbuf, hcnt, Nat.min_eq_left hmin]
  · rw [hcnt]
    have h480 : PACKET_SIZE / 2 * 2 ≤ PACKET_SIZE := by norm_num [PACKET_SIZE]
    omega
  · norm_num [PACKET_SIZE]

/-- Witness for C7 at a full capture buffer: with 512 samples reported, the
packet carries 240 samples and the datagram is 498 bytes. -/
theorem C7_witness :
    (sendAudioData initMachine BUFFER_SIZE 0 false 1).2.1.samples_count
        ≤ PACKET_SIZE / 2
  ∧ (headerBytes (sendAudioData initMachine BUFFER_SIZE 0 false 1).2.1).length = 18
  ∧ (headerBytes (sendAudioData initMachine BUFFER_SIZE 0 false 1).2.1 ++
       payloadBytes (initMachine.sendBuffer.take
         (sendAudioData initMachine BUFFER_SIZE 0 false 1).2.1.samples_count)).length
      = 18 + 2 * (sendAudioData initMachine BUFFER_SIZE 0 false 1).2.1.samples_count
  ∧ 18 + 2 * (sendAudioData initMachine BUFFER_SIZE 0 false 1).2.1.samples_count
      ≤ 18 + PACKET_SIZE
  ∧ 18 + PACKET_SIZE ≤ 1500 :=
  C7_packet_size initMachine BUFFER_SIZE 0 false 1 (by simp [initMachine])

/-- C4 counterexample: the scenario with energies [900, 900, 900] then ten
frames of energy 200 emits 11 packets, not 4: while transmitting, every
frame is framed and sent (lines 177-182 run on silent frames too), so the
nine silent frames before the silence threshold each emit a packet. -/
theorem C4_counterexample :
    (runVAD initMachine scenarioFrames).2.length = 11
  ∧ (runVAD initMachine scenarioFrames).2.length ≠ 4 := by
  decide

/-- C4 amended: the scenario produces exactly one utterance of 11 packets —
one on the frame that starts transmission (bit0 set), nine on the silent
frames below the stop threshold (flags zero), and one final packet on the
tenth silent frame (bit1 set) — with contiguous sequence numbers 0..10, and
the machine is idle afterwards. -/
theorem C4_scenario :
    (runVAD initMachine scenarioFrames).2.length = 11
  ∧ ((runVAD initMachine scenarioFrames).2.map (fun p => p.flags))
      = [1, 0, 0, 0, 0, 0, 0, 0, 0, 0, 2]
  ∧ ((runVAD initMachine scenarioFrames).2.map (fun p => p.sequence))
      = [0, 1, 2, 3, 4, 5, 6, 7, 8, 9, 10]
  ∧ (runVAD initMachine scenarioFrames).1.isTransmitting = false := by
  decide

/-- A transmitting state: the machine after three voiced frames. -/
def txState : Machine :=
  (runVAD initMachine (List.replicate 3 voicedFrame)).1

/-- A capture frame that fills the whole 512-sample buffer, more than one
packet's 240-sample payload limit. -/
def bigFrame : Frame :=
  { samplesRead := BUFFER_SIZE
    audio := List.replicate BUFFER_SIZE 1000
    now := 0
    sendResult := 1 }

/-- C5 counterexample: while transmitting, a frame of 512 samples emits
exactly one packet carrying only 240 samples — the remaining 272 samples are
dropped, not split into further packets. -/
theorem C5_counterexample :
    txState.isTransmitting = true
  ∧ bigFrame.samplesRead = 512
  ∧ (processAudioWithVAD txState bigFrame).2.length = 1
  ∧ ((processAudioWithVAD txState bigFrame).2.map (fun p => p.samples_count))
      = [240]
  ∧ (240 : Nat) < 512 := by
  decide

/-- C5 amended: while transmitting, every capture frame emits exactly one
packet, carrying min(samplesRead, PACKET_SIZE/2) samples — samples beyond
240 are truncated, never split across further packets — and the sequence
counter advances by exactly one per emitted packet. -/
theorem C5_truncation (st : Machine) (f : Frame)
    (hInv : Inv st) (hseq : st.packetSequence + 1 < U32)
    (ht : st.isTransmitting = true) :
    ∃ p, (processAudioWithVAD st f).2 = [p]
      ∧ p.samples_count = min f.samplesRead (PACKET_SIZE / 2)
      ∧ p.samples_count ≤ PACKET_SIZE / 2
      ∧ (processAudioWithVAD st f).1.packetSequence = st.packetSequence + 1 := by
  obtain ⟨_, _, hcase⟩ := stepCases st f hInv hseq
  rcases hcase with ⟨hF, _, _, _⟩ | ⟨hF, _, _, _⟩ |
    ⟨_, _, hseqEq, p, htr, _, _, hpc⟩ | ⟨_, _, hseqEq, p, htr, _, _, hpc⟩
  · exact absurd (ht.symm.trans hF) (by simp)
  · exact absurd (ht.symm.trans hF) (by simp)
  · exact ⟨p, htr, hpc, hpc ▸ Nat.min_le_right _ _, hseqEq⟩
  · exact ⟨p, htr, hpc, hpc ▸ Nat.min_le_right _ _, hseqEq⟩

/-- Witness for C5 amended at the transmitting state and the full-buffer
frame: one packet, 240 samples, sequence counter advanced by one. -/
theorem C5_witness :
    ∃ p, (processAudioWithVAD txState bigFrame).2 = [p]
      ∧ p.samples_count = min bigFrame.samplesRead (PACKET_SIZE / 2)
      ∧ p.samples_count ≤ PACKET_SIZE / 2
      ∧ (processAudioWithVAD txState bigFrame).1.packetSequence
          = txState.packetSequence + 1 :=
  C5_truncation txState bigFrame (by decide) (by decide) (by decide)

/-- C8 counterexample: after the scenario run ends its utterance, the
machine is idle but the silence counter is not 0 — the transition back to
idle does not reset it (it stays at SILENCE_FRAMES and keeps growing on
further silent frames). -/
theorem C8_counterexample :
    (runVAD initMachine scenarioFrames).1.isTransmitting = false
  ∧ (runVAD initMachine scenarioFrames).1.silenceCounter ≠ 0 := by
  decide

/-- C8 amended: on every step that leaves Transmitting, exactly one final
packet with flag byte 2 (bit1 set) is emitted, and afterwards the voice
counter is 0 while the silence counter equals SILENCE_FRAMES — it is not
reset to 0 on the transition. -/
theorem C8_final_packet (st : Machine) (f : Frame)
    (hInv : Inv st) (hseq : st.packetSequence + 1 < U32)
    (ht : st.isTransmitting = true)
    (hleave : (processAudioWithVAD st f).1.isTransmitting = false) :
    (∃ p, (processAudioWithVAD st f).2 = [p] ∧ p.flags = 2)
  ∧ (processAudioWithVAD st f).1.voiceCounter = 0
  ∧ (processAudioWithVAD st f).1.silenceCounter = SILENCE_FRAMES := by
  have h1 : 1 ≤ st.packetSequence := (hInv.2 ht).1
  have hslt : st.silenceCounter < SILENCE_FRAMES := (hInv.2 ht).2
  by_cases hv : ENERGY_THRESHOLD < computeEnergy f.samplesRead f.audio
  · rw [stepVoicedTx st f hv ht hseq h1] at hleave
    exact absurd (ht.symm.trans hleave) (by simp)
  · by_cases hsc : SILENCE_FRAMES ≤ st.silenceCounter + 1
    · rw [stepSilentFinal st f hv ht hsc hseq h1]
      exact ⟨⟨_, rfl, rfl⟩, rfl,
        show st.silenceCounter + 1 = SILENCE_FRAMES by omega⟩
    · rw [stepSilentTxLow st f hv ht (Nat.not_le.mp hsc) hseq h1] at hleave
      exact absurd (ht.symm.trans hleave) (by simp)

/-- The machine after three voiced frames and nine silent frames: still
transmitting, silence counter at 9, one silent frame away from the stop
threshold. -/
def preFinalState : Machine :=
  (runVAD initMachine
    (List.replicate 3 voicedFrame ++ List.replicate 9 silentFrame)).1

/-- Witness for C8 amended: the tenth consecutive silent frame ends the
utterance with one bit1 packet, leaving voice counter 0 and silence counter
SILENCE_FRAMES. -/
theorem C8_witness :
    (∃ p, (processAudioWithVAD preFinalState silentFrame).2 = [p]
        ∧ p.flags = 2)
  ∧ (processAudioWithVAD preFinalState silentFrame).1.voiceCounter = 0
  ∧ (processAudioWithVAD preFinalState silentFrame).1.silenceCounter
      = SILENCE_FRAMES :=
  C8_final_packet preFinalState silentFrame (by decide) (by decide)
    (by decide) (by decide)

/-- C10 counterexample: the capture callback guard is bytesAvailable > 0,
so one available byte sets the ready flag while samplesRead becomes
1 / 2 = 0 — the processing step would then divide by a zero sample count
(the model's Nat division returns 0 where the C code divides by zero). -/
theorem C10_counterexample :
    (onPDMdata 1 0 false).2 = true
  ∧ (onPDMdata 1 0 false).1 = 0
  ∧ computeEnergy (onPDMdata 1 0 false).1 [900] = 0 := by
  decide

/-- C10 amended: whenever the capture source reports at least one complete
16-bit sample (bytesAvailable at least 2 — in particular any positive even
byte count), the callback sets the ready flag and a sample count of at
least 1, so the mean-energy division is by a positive count. -/
theorem C10_sample_count (bytesAvailable prevSamples : Nat) (prevReady : Bool)
    (h2 : 2 ≤ bytesAvailable) :
    1 ≤ (onPDMdata bytesAvailable prevSamples prevReady).1
  ∧ (onPDMdata bytesAvailable prevSamples prevReady).2 = true := by
  rw [onPDMdata, if_pos (show 0 < bytesAvailable by omega)]
  exact ⟨by omega, rfl⟩

/-- Witness for C10 amended at the smallest complete sample: two bytes give
one sample and a raised ready flag. -/
theorem C10_witness :
    1 ≤ (onPDMdata 2 0 false).1 ∧ (onPDMdata 2 0 false).2 = true :=
  C10_sample_count 2 0 false (by decide)

end VoiceAssistant
